import Mathlib

/-!
Verification of the rekord capture-and-windowing pipeline.

This file gives a shallow embedding, in Lean 4, of the core data model and
operations of the rekord repository (Go): the multi-source capture
coordinator (internal/audio/capture.go), the windowing/accumulation buffer
(cmd/rekord/main.go and the transcriber package), the WAV float-to-int16
sample conversion, and the whisper output parser, together with theorems
about them.

Modelling conventions:
- Audio sample values (Go float32) are never inspected by the buffering and
  windowing code, only copied and counted; they are modelled by the opaque
  carrier type Sample := Int.  Where the numeric value matters (the WAV
  encoder's clamp-and-scale), float32 values are embedded exactly into the
  rationals.
- Go byte values are modelled as Nat reduced mod 256 where the byte range
  matters; uint32 bit patterns as Nat.
- Go time.Duration is modelled as Int nanoseconds (int64 wraparound is not
  modelled; all values involved are far below the bound).
- Goroutine interleavings are modelled by a small-step relation whose atomic
  steps are exactly the mutex-protected critical sections of the Go code.
-/

namespace Rekord

/-- Audio sample carrier. The windowing and capture code treats Go float32
samples as opaque values (it only appends, copies and counts them), so the
carrier is taken to be Int. -/
abbrev Sample := Int

/-- SampleRate constant (internal/audio/capture.go line 17): whisper expects
16 kHz audio. -/
def sampleRate : Nat := 16000

/-- FrameSize constant (internal/audio/capture.go line 19): 30 ms frames at
16 kHz. -/
def FrameSize : Nat := 480

/-! ## Multi-source capture coordinator (internal/audio/capture.go)

A Go Source holds a process handle, cancellation handle, stop channel and
wait group; for the claims below what matters is whether its capture
subprocess is currently active, abstracted by the field running. -/

/-- Model of the Source struct (capture.go lines 24-30): one capture channel
with an opaque device identifier; running abstracts whether its external
capture subprocess has been spawned and not yet stopped. -/
structure SourceM where
  deviceName : String
  running : Bool
deriving DecidableEq, Repr

/-- Model of the MultiCapture struct (capture.go lines 33-38): an ordered
list of sources and the coordinator-level running flag.  The mutex is
modelled by treating every lock-protected method body as one atomic step. -/
structure MultiCaptureM where
  sources : List SourceM
  isRunning : Bool
deriving DecidableEq, Repr

/-- NewMultiCapture (capture.go lines 57-76): errors on an empty device
list, otherwise creates one not-yet-started Source per identifier, in the
given order, with the coordinator not running (Go zero value of
isRunning). -/
def NewMultiCapture (deviceNames : List String) : Except String MultiCaptureM :=
  if deviceNames.isEmpty then
    .error "at least one device name is required"
  else
    .ok { sources := deviceNames.map (fun n => { deviceName := n, running := false })
          isRunning := false }

/-- startSource (capture_linux.go lines 94-122, capture_darwin.go analogous):
spawning the platform capture subprocess for a device either succeeds
(the source is then running) or fails.  Whether the spawn succeeds is
environment-determined; it is abstracted by the oracle ok. -/
def startSource (ok : String → Bool) (s : SourceM) : Except String SourceM :=
  if ok s.deviceName then .ok { s with running := true }
  else .error ("failed to start source " ++ s.deviceName)

/-- stopSource (capture.go lines 144-165): closes the stop channel, cancels
the subprocess and waits; afterwards the source is not running.  Safe to call
on a source that was never started. -/
def stopSource (s : SourceM) : SourceM := { s with running := false }

/-- stopAllSources (capture.go lines 137-141): stops every source. -/
def stopAllSources (l : List SourceM) : List SourceM := l.map stopSource

/-- The source-starting loop inside Start (capture.go lines 88-94): sources
are started in order; the first failure aborts the loop with that error. -/
def startSources (ok : String → Bool) : List SourceM → Except String (List SourceM)
  | [] => .ok []
  | s :: rest =>
    match startSource ok s with
    | .error e => .error e
    | .ok s' =>
      match startSources ok rest with
      | .error e => .error e
      | .ok rest' => .ok (s' :: rest')

/-- Start (capture.go lines 79-98): errors if already running; otherwise
starts each source in order, and on any failure stops all sources (the Go
code calls stopAllSources, which resets every source, started or not) and
returns the error with the running flag still false; on success all sources
run and the flag is set. -/
def MultiCaptureM.Start (ok : String → Bool) (c : MultiCaptureM) :
    Except String Unit × MultiCaptureM :=
  if c.isRunning then
    (.error "capture already running", c)
  else
    match startSources ok c.sources with
    | .error e => (.error e, { c with sources := stopAllSources c.sources, isRunning := false })
    | .ok started => (.ok (), { c with sources := started, isRunning := true })

/-- Stop (capture.go lines 168-180): returns nil immediately when not
running; otherwise clears the flag and stops all sources.  Always returns
nil (never an error). -/
def MultiCaptureM.Stop (c : MultiCaptureM) : Except String Unit × MultiCaptureM :=
  if c.isRunning = false then
    (.ok (), c)
  else
    (.ok (), { c with isRunning := false, sources := stopAllSources c.sources })

/-- True when the Except value is an error. -/
def exceptIsError {ε α : Type} : Except ε α → Bool
  | .error _ => true
  | .ok _ => false

/-- True when no source of the coordinator is running. -/
def allStopped (c : MultiCaptureM) : Bool := c.sources.all (fun s => !s.running)

theorem allStopped_stopAllSources (c : MultiCaptureM) :
    (MultiCaptureM.mk (stopAllSources c.sources) c.isRunning).sources.all
      (fun s => !s.running) = true := by
  simp [stopAllSources, stopSource, List.all_eq_true]

theorem startSources_error_of_fail (ok : String → Bool) (l : List SourceM)
    (h : ∃ s ∈ l, ok s.deviceName = false) :
    ∃ e, startSources ok l = .error e := by
  induction l with
  | nil => simp at h
  | cons s rest ih =>
    rcases h with ⟨t, ht, hfail⟩
    rcases List.mem_cons.mp ht with rfl | hmem
    · refine ⟨"failed to start source " ++ t.deviceName, ?_⟩
      simp [startSources, startSource, hfail]
    · by_cases hs : ok s.deviceName
      · rcases ih ⟨t, hmem, hfail⟩ with ⟨e, he⟩
        exact ⟨e, by simp [startSources, startSource, hs, he]⟩
      · exact ⟨"failed to start source " ++ s.deviceName,
          by simp [startSources, startSource, hs]⟩

/-- C2: for every non-empty list of device identifiers, if some source fails
to start during the coordinator's Start (the loop stops at the first failing
index k; all earlier sources had started), then Start returns an error,
every already-started source has been stopped before it returns (zero
sources remain running), and the coordinator is left not running (the
running flag is false, as before the call). -/
theorem start_failure_rollback (deviceNames : List String) (ok : String → Bool)
    (c : MultiCaptureM)
    (hne : deviceNames ≠ [])
    (hc : NewMultiCapture deviceNames = .ok c)
    (hfail : ∃ name ∈ deviceNames, ok name = false) :
    exceptIsError (c.Start ok).1 = true ∧
    allStopped (c.Start ok).2 = true ∧
    (c.Start ok).2.isRunning = false := by
  have hemp : deviceNames.isEmpty = false := by
    cases deviceNames with
    | nil => exact absurd rfl hne
    | cons a l => rfl
  have hc' : c = { sources := deviceNames.map (fun n => { deviceName := n, running := false })
                   isRunning := false } := by
    unfold NewMultiCapture at hc
    rw [hemp] at hc
    simp at hc
    exact hc.symm
  rcases hfail with ⟨name, hmem, hok⟩
  have hsrc : ∃ s ∈ c.sources, ok s.deviceName = false := by
    refine ⟨{ deviceName := name, running := false }, ?_, hok⟩
    rw [hc']
    exact List.mem_map_of_mem _ hmem
  rcases startSources_error_of_fail ok c.sources hsrc with ⟨e, he⟩
  have hrun : c.isRunning = false := by rw [hc']
  simp [MultiCaptureM.Start, hrun, he, exceptIsError, allStopped,
    stopAllSources, stopSource, List.all_eq_true]

/-- Device-start oracle used by the C2 witness: only the device named sys
starts successfully. -/
def onlySysStarts (n : String) : Bool := n == "sys"

/-- C2 witness: with devices sys and mic where mic fails to spawn, Start on
the freshly constructed coordinator errors, leaves zero sources running and
the running flag false. -/
theorem start_failure_rollback_witness :
    exceptIsError ((MultiCaptureM.mk
        [⟨"sys", false⟩, ⟨"mic", false⟩] false).Start onlySysStarts).1 = true ∧
    allStopped ((MultiCaptureM.mk
        [⟨"sys", false⟩, ⟨"mic", false⟩] false).Start onlySysStarts).2 = true ∧
    ((MultiCaptureM.mk
        [⟨"sys", false⟩, ⟨"mic", false⟩] false).Start onlySysStarts).2.isRunning = false :=
  start_failure_rollback ["sys", "mic"] onlySysStarts _ (by simp) rfl (by decide)

/-- C7: Stop is idempotent.  For every coordinator state, the first Stop
returns no error, and a second Stop in succession again returns no error and
leaves the coordinator state (running flag and sources) unchanged; stopping
an already-stopped coordinator is a no-op, not an error. -/
theorem stop_idempotent (c : MultiCaptureM) :
    (c.Stop).1 = .ok () ∧ ((c.Stop).2).Stop = (.ok (), (c.Stop).2) := by
  by_cases h : c.isRunning = false
  · simp [MultiCaptureM.Stop, h]
  · simp [MultiCaptureM.Stop, h]

/-- C10: constructing the multi-source coordinator errors exactly when the
device-identifier list is empty; for every non-empty list it succeeds,
creating one (not yet running) source per identifier in the given order,
with the coordinator initially not running. -/
theorem newMultiCapture_spec (deviceNames : List String) :
    match NewMultiCapture deviceNames with
    | .error e => deviceNames.isEmpty = true ∧ e = "at least one device name is required"
    | .ok c => deviceNames.isEmpty = false ∧
        c.sources.map SourceM.deviceName = deviceNames ∧
        allStopped c = true ∧ c.isRunning = false := by
  by_cases h : deviceNames.isEmpty
  · simp [NewMultiCapture, h]
  · simp [NewMultiCapture, h, allStopped, List.all_eq_true, List.map_map, Function.comp_def]

/-! ## Windowing buffer (cmd/rekord/main.go and the transcriber package) -/

/-- processAudioBuffer (cmd/rekord/main.go lines 309-327): if the buffer
holds fewer than 3 seconds of audio, it is a no-op (nothing submitted,
buffer unchanged); otherwise the whole buffer is copied out for submission
and the buffer is truncated to the most recent 2 seconds, or cleared to
empty if it held no more than that.  Returns (submitted window, remaining
buffer). -/
def processAudioBuffer (buf : List Sample) : Option (List Sample) × List Sample :=
  if buf.length < sampleRate * 3 then (none, buf)
  else
    (some buf,
      if sampleRate * 2 < buf.length then buf.drop (buf.length - sampleRate * 2) else [])

/-- The buffer copy/truncate critical section of transcribe
(internal/audio/capture.go transcriber package, lines 611-621): the whole
buffer is copied out, and the buffer is truncated to the most recent 2
seconds when it is longer than that (otherwise left as is; this branch is
unreachable from ProcessAudio, whose 3-second minimum exceeds the 2-second
retention).  Returns (copied window, remaining buffer). -/
def transcribeDrain (buf : List Sample) : List Sample × List Sample :=
  (buf,
    if sampleRate * 2 < buf.length then buf.drop (buf.length - sampleRate * 2) else buf)

/-- C1: after a successful drain (buffer length L at least the 3-second
minimum) with retention threshold R = 2 seconds of samples: the entire
L-sample content is copied out for submission, and if L exceeds R the
remaining buffer is exactly the most recent R samples of the old content (a
suffix of length R), while if L is at most R the remaining buffer is empty
(in cmd/rekord/main.go; in the transcriber the truncation agrees on every
successful drain, where L exceeds R always holds). -/
theorem drain_retention (buf : List Sample) (h : sampleRate * 3 ≤ buf.length) :
    (processAudioBuffer buf).1 = some buf ∧
    (transcribeDrain buf).1 = buf ∧
    (sampleRate * 2 < buf.length →
      (processAudioBuffer buf).2 <:+ buf ∧
      (processAudioBuffer buf).2.length = sampleRate * 2 ∧
      (transcribeDrain buf).2 = (processAudioBuffer buf).2) ∧
    (buf.length ≤ sampleRate * 2 → (processAudioBuffer buf).2 = []) := by
  have hnl : ¬ buf.length < sampleRate * 3 := Nat.not_lt.mpr h
  refine ⟨by simp [processAudioBuffer, hnl], rfl, ?_, ?_⟩
  · intro h2
    refine ⟨?_, ?_, ?_⟩
    · simp only [processAudioBuffer, hnl, if_false, if_pos h2, if_neg hnl]
      exact List.drop_suffix _ _
    · simp only [processAudioBuffer, if_neg hnl, if_pos h2, List.length_drop]
      omega
    · simp only [processAudioBuffer, transcribeDrain, if_neg hnl, if_pos h2]
  · intro h2
    simp only [processAudioBuffer, if_neg hnl, if_neg (Nat.not_lt.mpr h2)]

/-- C1 witness: a buffer of exactly 3 seconds (48000 samples) drains: its
whole content is submitted, and (being longer than the 2-second retention)
the remainder is the most recent 32000 samples. -/
theorem drain_retention_witness :
    (processAudioBuffer (List.replicate 48000 (0 : Sample))).1
        = some (List.replicate 48000 (0 : Sample)) ∧
    (transcribeDrain (List.replicate 48000 (0 : Sample))).1
        = List.replicate 48000 (0 : Sample) ∧
    (sampleRate * 2 < (List.replicate 48000 (0 : Sample)).length →
      (processAudioBuffer (List.replicate 48000 (0 : Sample))).2
          <:+ List.replicate 48000 (0 : Sample) ∧
      (processAudioBuffer (List.replicate 48000 (0 : Sample))).2.length = sampleRate * 2 ∧
      (transcribeDrain (List.replicate 48000 (0 : Sample))).2
          = (processAudioBuffer (List.replicate 48000 (0 : Sample))).2) ∧
    ((List.replicate 48000 (0 : Sample)).length ≤ sampleRate * 2 →
      (processAudioBuffer (List.replicate 48000 (0 : Sample))).2 = []) :=
  drain_retention (List.replicate 48000 (0 : Sample))
    (by rw [List.length_replicate]; norm_num [sampleRate])

/-- Events of the main-loop windowing buffer: onAudioData appends a frame
(cmd/rekord/main.go lines 269-272), and a 5-second ticker tick calls
processAudioBuffer (lines 291-306). -/
inductive BufEvent where
  | append (frame : List Sample)
  | tick
deriving DecidableEq

/-- State of the main-loop windowing buffer: accumulated samples and the
list of windows submitted to the transcription engine so far. -/
structure LoopState where
  audioBuffer : List Sample
  submissions : List (List Sample)
deriving DecidableEq

/-- One step of the main loop: append a frame, or attempt a drain via
processAudioBuffer. -/
def stepLoop (s : LoopState) : BufEvent → LoopState
  | .append frame => { s with audioBuffer := s.audioBuffer ++ frame }
  | .tick =>
    match processAudioBuffer s.audioBuffer with
    | (none, b) => { s with audioBuffer := b }
    | (some w, b) => { audioBuffer := b, submissions := s.submissions ++ [w] }

/-- Initial state: empty buffer, nothing submitted. -/
def initLoopState : LoopState := { audioBuffer := [], submissions := [] }

/-- Run the main loop over a sequence of events. -/
def runLoop (evs : List BufEvent) : LoopState := evs.foldl stepLoop initLoopState

/-- Total number of samples appended across a sequence of events. -/
def totalAppended : List BufEvent → Nat
  | [] => 0
  | .append f :: rest => f.length + totalAppended rest
  | .tick :: rest => totalAppended rest

/-- Concatenation of all appended frames, in order. -/
def appendedSamples : List BufEvent → List Sample
  | [] => []
  | .append f :: rest => f ++ appendedSamples rest
  | .tick :: rest => appendedSamples rest

theorem runLoop_below_min (evs : List BufEvent) :
    ∀ s : LoopState, s.audioBuffer.length + totalAppended evs < sampleRate * 3 →
      (evs.foldl stepLoop s).audioBuffer = s.audioBuffer ++ appendedSamples evs ∧
      (evs.foldl stepLoop s).submissions = s.submissions := by
  induction evs with
  | nil => intro s h; simp [appendedSamples]
  | cons e rest ih =>
    intro s h
    rw [List.foldl_cons]
    cases e with
    | append f =>
      have h' : ({ s with audioBuffer := s.audioBuffer ++ f } : LoopState).audioBuffer.length
          + totalAppended rest < sampleRate * 3 := by
        simp only [totalAppended] at h
        simp only [List.length_append]
        omega
      rcases ih _ h' with ⟨h1, h2⟩
      refine ⟨?_, ?_⟩
      · rw [show stepLoop s (.append f) = { s with audioBuffer := s.audioBuffer ++ f } from rfl,
          h1]
        simp [appendedSamples]
      · rw [show stepLoop s (.append f) = { s with audioBuffer := s.audioBuffer ++ f } from rfl,
          h2]
    | tick =>
      have h' : s.audioBuffer.length + totalAppended rest < sampleRate * 3 := by
        simpa only [totalAppended] using h
      have hshort : s.audioBuffer.length < sampleRate * 3 := by omega
      have hstep : stepLoop s .tick = s := by
        simp [stepLoop, processAudioBuffer, hshort]
      rw [hstep]
      rcases ih s h' with ⟨h1, h2⟩
      exact ⟨by rw [h1]; simp [appendedSamples], h2⟩

/-- C5: a drain never fires below the 3-second minimum threshold: for any
sequence of appended frames whose total sample count is below 3 x 16000
samples, every tick's drain attempt is a no-op, no window is ever submitted,
and the buffer ends holding exactly the appended samples (audio keeps
accumulating). -/
theorem drain_below_min_noop (evs : List BufEvent) (h : totalAppended evs < sampleRate * 3) :
    (runLoop evs).submissions = [] ∧ (runLoop evs).audioBuffer = appendedSamples evs := by
  rcases runLoop_below_min evs initLoopState (by simpa [initLoopState] using h) with ⟨h1, h2⟩
  constructor
  · simpa [runLoop, initLoopState] using h2
  · simpa [runLoop, initLoopState] using h1

/-- C5 witness: appending 3 then 1 samples with ticks in between (4 samples
total, well below 48000) submits nothing and accumulates all samples. -/
theorem drain_below_min_noop_witness :
    (runLoop [BufEvent.append [1, 2, 3], BufEvent.tick,
        BufEvent.append [4], BufEvent.tick]).submissions = [] ∧
    (runLoop [BufEvent.append [1, 2, 3], BufEvent.tick,
        BufEvent.append [4], BufEvent.tick]).audioBuffer
      = appendedSamples [BufEvent.append [1, 2, 3], BufEvent.tick,
        BufEvent.append [4], BufEvent.tick] :=
  drain_below_min_noop _ (by decide)

/-! ## Transcriber in-flight throttling (internal/audio/capture.go,
transcriber package, lines 585-640)

The mutex-protected critical sections of ProcessAudio and transcribe are the
atomic steps; spawned transcribe goroutines are counted explicitly so that
"at most one transcription in flight" is a proved invariant, not a modelling
assumption. -/

/-- Model of the Transcriber state relevant to windowing: the accumulation
buffer, the isProcessing flag, and the transcribe goroutines currently alive
(nSpawned: spawned but not yet past their copy/truncate critical section;
nDrained: past it, running the engine, not yet finished). -/
structure TState where
  audioBuffer : List Sample
  isProcessing : Bool
  nSpawned : Nat
  nDrained : Nat
deriving DecidableEq

/-- ProcessAudio (capture.go lines 585-608), one whole call under the lock:
append the frame; if fewer than 3 seconds accumulated, return; if the
5-second wall-clock throttle has not elapsed (abstracted by the oracle
timeOk), return; if no transcription is processing, set the flag and spawn a
transcribe goroutine; otherwise skip the drain entirely. -/
def processAudioStep (s : TState) (frame : List Sample) (timeOk : Bool) : TState :=
  if (s.audioBuffer ++ frame).length < sampleRate * 3 then
    { s with audioBuffer := s.audioBuffer ++ frame }
  else if timeOk = false then
    { s with audioBuffer := s.audioBuffer ++ frame }
  else if s.isProcessing = false then
    { s with audioBuffer := s.audioBuffer ++ frame, isProcessing := true,
             nSpawned := s.nSpawned + 1 }
  else
    { s with audioBuffer := s.audioBuffer ++ frame }

/-- Atomic steps of the transcriber: a ProcessAudio call (any frame, any
throttle outcome), a spawned goroutine's copy/truncate critical section
(transcribe lines 612-621), and a goroutine's final critical section
clearing the flag (transcribe lines 637-639). -/
inductive TStep : TState → TState → Prop
  | processAudio (s : TState) (frame : List Sample) (timeOk : Bool) :
      TStep s (processAudioStep s frame timeOk)
  | beginTranscribe (s : TState) (h : 0 < s.nSpawned) :
      TStep s { s with audioBuffer := (transcribeDrain s.audioBuffer).2,
                       nSpawned := s.nSpawned - 1, nDrained := s.nDrained + 1 }
  | endTranscribe (s : TState) (h : 0 < s.nDrained) :
      TStep s { s with nDrained := s.nDrained - 1, isProcessing := false }

/-- Initial transcriber state (transcriber New, capture.go lines 552-570):
empty buffer, not processing, no goroutines. -/
def TState.start : TState :=
  { audioBuffer := [], isProcessing := false, nSpawned := 0, nDrained := 0 }

/-- States reachable from the initial transcriber state under any
interleaving of steps. -/
inductive TReachable : TState → Prop
  | start : TReachable TState.start
  | step {s s' : TState} : TReachable s → TStep s s' → TReachable s'

/-- Number of transcriptions currently in flight: all live transcribe
goroutines, in either phase. -/
def inFlight (s : TState) : Nat := s.nSpawned + s.nDrained

theorem processAudioStep_cases (s : TState) (frame : List Sample) (timeOk : Bool) :
    processAudioStep s frame timeOk = { s with audioBuffer := s.audioBuffer ++ frame } ∨
    (s.isProcessing = false ∧ processAudioStep s frame timeOk =
      { s with audioBuffer := s.audioBuffer ++ frame, isProcessing := true,
               nSpawned := s.nSpawned + 1 }) := by
  unfold processAudioStep
  split
  · exact .inl rfl
  · split
    · exact .inl rfl
    · split
      · rename_i h
        exact .inr ⟨h, rfl⟩
      · exact .inl rfl

theorem tstate_invariant {s : TState} (h : TReachable s) :
    inFlight s ≤ 1 ∧ (s.isProcessing = true ↔ inFlight s = 1) := by
  induction h with
  | start => simp [TState.start, inFlight]
  | @step s s' hr hs ih =>
    rcases ih with ⟨hle, hiff⟩
    cases hs with
    | processAudio frame timeOk =>
      rcases processAudioStep_cases s frame timeOk with heq | ⟨hnp, heq⟩
      · rw [heq]
        exact ⟨hle, hiff⟩
      · have h0 : inFlight s = 0 := by
          by_cases h1 : inFlight s = 1
          · rw [hiff.mpr h1] at hnp
            cases hnp
          · omega
        rw [heq]
        simp only [inFlight] at h0 ⊢
        constructor
        · omega
        · simp only [true_iff]
          omega
    | beginTranscribe hsp =>
      have h1 : inFlight s = 1 := by
        simp only [inFlight] at hle ⊢
        omega
      have hp : s.isProcessing = true := hiff.mpr h1
      simp only [inFlight] at h1 ⊢
      constructor
      · omega
      · rw [hp]
        simp only [true_iff]
        omega
    | endTranscribe hd =>
      have h1 : inFlight s = 1 := by
        simp only [inFlight] at hle ⊢
        omega
      simp only [inFlight] at h1 ⊢
      constructor
      · omega
      · constructor
        · intro hfalse
          cases hfalse
        · intro habs
          omega

/-- C3: at most one transcription is in flight at any instant, for any
interleaving of ticks: in every reachable transcriber state the number of
live transcribe goroutines is at most one, and while the in-flight flag is
set a new ProcessAudio tick skips the drain entirely (it spawns nothing and
leaves the flag set), so a second transcription is never started before the
previous one finished. -/
theorem single_transcription_in_flight (s : TState) (frame : List Sample) (timeOk : Bool)
    (h : TReachable s) :
    inFlight s ≤ 1 ∧
    (s.isProcessing = true →
      inFlight (processAudioStep s frame timeOk) = inFlight s ∧
      (processAudioStep s frame timeOk).isProcessing = true) := by
  refine ⟨(tstate_invariant h).1, ?_⟩
  intro hp
  unfold processAudioStep
  split
  · exact ⟨rfl, hp⟩
  · split
    · exact ⟨rfl, hp⟩
    · split
      · rename_i h3
        rw [hp] at h3
        cases h3
      · exact ⟨rfl, hp⟩

/-- C3 witness: after one tick with 3 seconds of audio and the throttle
elapsed, a transcription is in flight; a further tick in that state changes
neither the in-flight count nor the flag. -/
theorem single_transcription_in_flight_witness :
    inFlight (processAudioStep TState.start (List.replicate 48000 (0 : Sample)) true) ≤ 1 ∧
    ((processAudioStep TState.start (List.replicate 48000 (0 : Sample)) true).isProcessing
        = true →
      inFlight (processAudioStep
          (processAudioStep TState.start (List.replicate 48000 (0 : Sample)) true) [0] true)
        = inFlight (processAudioStep TState.start (List.replicate 48000 (0 : Sample)) true) ∧
      (processAudioStep
          (processAudioStep TState.start (List.replicate 48000 (0 : Sample)) true)
          [0] true).isProcessing = true) :=
  single_transcription_in_flight _ [0] true
    (TReachable.step TReachable.start
      (TStep.processAudio TState.start (List.replicate 48000 (0 : Sample)) true))

/-! ## Read loop byte decoding (internal/audio/capture.go lines 100-134)

Bytes are Nat values (reduced mod 256 where the byte range matters); a
decoded float32 sample is represented by its 32-bit IEEE-754 bit pattern,
since math.Float32frombits is a bijection between bit patterns and float32
values and the read loop never inspects the numeric value. -/

/-- bytesToFloat32 (capture.go lines 100-103): assemble the little-endian
32-bit word from four bytes; the result stands for
math.Float32frombits of that word. -/
def bytesToFloat32 (b0 b1 b2 b3 : Nat) : Nat :=
  Nat.lor (b0 % 256)
    (Nat.lor (Nat.shiftLeft (b1 % 256) 8)
      (Nat.lor (Nat.shiftLeft (b2 % 256) 16) (Nat.shiftLeft (b3 % 256) 24)))

/-- One successful iteration of readAudioLoop (capture.go lines 113-132)
with a Read that returned n bytes into the 1920-byte buffer: the persistent
480-entry samples array arr keeps its stale entries beyond n / 4, the first
n / 4 entries are overwritten with the decoded little-endian groups, and the
frame delivered to the sink is the n / 4-entry prefix (the Go slice
samples[:numSamples]).  readSamplesArray is the updated samples array after
the conversion loop (capture.go lines 124-127). -/
def readSamplesArray (buffer : List Nat) (numSamples : Nat) (arr : List Nat) : List Nat :=
  (List.range arr.length).map (fun i =>
    if i < numSamples then
      bytesToFloat32 (buffer.getD (i * 4) 0) (buffer.getD (i * 4 + 1) 0)
        (buffer.getD (i * 4 + 2) 0) (buffer.getD (i * 4 + 3) 0)
    else arr.getD i 0)

/-- The observable outcome of one read-loop iteration: the updated samples
array and the frame delivered to the sink callback. -/
def readIteration (arr : List Nat) (buffer : List Nat) (n : Nat) : List Nat × List Nat :=
  (readSamplesArray buffer (n / 4) arr, (readSamplesArray buffer (n / 4) arr).take (n / 4))

/-- C8: on every successful read returning n bytes, the read loop delivers
to the sink exactly the samples decoded from the bytes actually read: the
delivered frame is precisely the n / 4 consecutive 4-byte little-endian
groups of the read bytes, each converted by bytesToFloat32 -- in particular
its length is n / 4, it is never zero-padded up to the fixed 480-sample
frame size, and no stale array content leaks into it. -/
theorem readIteration_delivers (arr buffer : List Nat) (n : Nat)
    (harr : arr.length = FrameSize) (hn : n ≤ FrameSize * 4) :
    (readIteration arr buffer n).2 =
      (List.range (n / 4)).map (fun i =>
        bytesToFloat32 (buffer.getD (i * 4) 0) (buffer.getD (i * 4 + 1) 0)
          (buffer.getD (i * 4 + 2) 0) (buffer.getD (i * 4 + 3) 0)) := by
  have hdiv : n / 4 ≤ FrameSize := by
    have : n / 4 ≤ FrameSize * 4 / 4 := Nat.div_le_div_right hn
    simpa using this
  unfold readIteration readSamplesArray
  rw [harr]
  rw [← List.map_take, List.take_range, Nat.min_eq_left hdiv]
  apply List.map_congr_left
  intro i hi
  rw [if_pos (List.mem_range.mp hi)]

/-- C8 witness: a partial read of 5 bytes from a buffer of constant byte 7
into a samples array full of stale value 99 delivers exactly one decoded
sample (floor(5/4) = 1) and none of the stale entries. -/
theorem readIteration_delivers_witness :
    (readIteration (List.replicate 480 99) (List.replicate 1920 7) 5).2
      = [bytesToFloat32 7 7 7 7] := by
  rw [readIteration_delivers (List.replicate 480 99) (List.replicate 1920 7) 5
    (by rw [List.length_replicate]; rfl) (by norm_num [FrameSize])]
  decide

/-! ## WAV sample conversion (internal/audio/capture.go, transcriber
package, writeWAV lines 343-354)

Every float32 value is a rational number, so the clamp-and-scale conversion
is modelled over the rationals with exact arithmetic; the Go float-to-int
conversion truncates toward zero. -/

/-- The clamp of writeWAV (lines 347-352): values above 1.0 become 1.0,
values below -1.0 become -1.0. -/
def clampUnit (s : ℚ) : ℚ := if 1 < s then 1 else if s < -1 then -1 else s

/-- Truncation toward zero, the semantics of the Go conversion int16(x) from
a floating-point x. -/
def truncQ (x : ℚ) : Int := if 0 ≤ x then ⌊x⌋ else ⌈x⌉

/-- The float-to-integer sample conversion of writeWAV (line 353): clamp to
[-1, 1], scale by 32767, truncate. -/
def float32ToInt16 (s : ℚ) : Int := truncQ (clampUnit s * 32767)

theorem clampUnit_bounds (s : ℚ) : -1 ≤ clampUnit s ∧ clampUnit s ≤ 1 := by
  unfold clampUnit
  split
  · norm_num
  · split
    · norm_num
    · rename_i h1 h2
      exact ⟨le_of_not_lt h2, le_of_not_lt h1⟩

/-- C9: the float-to-integer conversion used when encoding the WAV container
clamps each sample to [-1, 1] before scaling by 32767, so the result always
lies within the representable int16 range (indeed within [-32767, 32767]),
and out-of-range inputs never wrap or overflow: any sample at least 1 maps
to 32767 and any sample at most -1 maps to -32767. -/
theorem float32ToInt16_range (s : ℚ) :
    (-32767 ≤ float32ToInt16 s ∧ float32ToInt16 s ≤ 32767) ∧
    (1 ≤ s → float32ToInt16 s = 32767) ∧
    (s ≤ -1 → float32ToInt16 s = -32767) := by
  rcases clampUnit_bounds s with ⟨hlo, hhi⟩
  have hx_lo : (-32767 : ℚ) ≤ clampUnit s * 32767 := by nlinarith
  have hx_hi : clampUnit s * 32767 ≤ 32767 := by nlinarith
  refine ⟨?_, ?_, ?_⟩
  · unfold float32ToInt16 truncQ
    split
    · rename_i hpos
      have h0 : (0 : ℤ) ≤ ⌊clampUnit s * 32767⌋ := Int.floor_nonneg.mpr hpos
      have h1 : ⌊clampUnit s * 32767⌋ ≤ ⌊(32767 : ℚ)⌋ := Int.floor_le_floor hx_hi
      have h2 : ⌊(32767 : ℚ)⌋ = 32767 := by
        rw [show ((32767 : ℚ)) = ((32767 : ℤ) : ℚ) by norm_num, Int.floor_intCast]
      omega
    · rename_i hneg
      have h1 : ⌈(-32767 : ℚ)⌉ ≤ ⌈clampUnit s * 32767⌉ := Int.ceil_le_ceil hx_lo
      have h2 : ⌈(-32767 : ℚ)⌉ = -32767 := by
        rw [show ((-32767 : ℚ)) = ((-32767 : ℤ) : ℚ) by norm_num, Int.ceil_intCast]
      have h3 : ⌈clampUnit s * 32767⌉ ≤ (0 : ℤ) :=
        Int.ceil_le.mpr (by push_cast; exact le_of_lt (not_le.mp hneg))
      omega
  · intro h1
    have hc : clampUnit s = 1 := by
      unfold clampUnit
      split
      · rfl
      · split
        · linarith
        · linarith
    unfold float32ToInt16 truncQ
    rw [hc]
    norm_num
  · intro h1
    have hc : clampUnit s = -1 := by
      unfold clampUnit
      split
      · linarith
      · split
        · rfl
        · linarith
    unfold float32ToInt16 truncQ
    rw [hc, show ((-1 : ℚ) * 32767) = (((-32767 : ℤ)) : ℚ) by norm_num,
      if_neg (by norm_num), Int.ceil_intCast]

/-- C9 witness: the out-of-range samples 2 and -2 map exactly to 32767 and
-32767, and an in-range sample stays within the int16 range. -/
theorem float32ToInt16_range_witness :
    float32ToInt16 2 = 32767 ∧ float32ToInt16 (-2) = -32767 ∧
    -32767 ≤ float32ToInt16 (1 / 2) ∧ float32ToInt16 (1 / 2) ≤ 32767 :=
  ⟨(float32ToInt16_range 2).2.1 (by norm_num),
   (float32ToInt16_range (-2)).2.2 (by norm_num),
   (float32ToInt16_range (1 / 2)).1.1,
   (float32ToInt16_range (1 / 2)).1.2⟩

/-! ## Output parser (internal/audio/capture.go, transcriber package,
lines 388-502)

Strings are processed as their character lists.  The timestamp bracket
pattern and the skip catalogue are regular expressions in the source; at
every point where they are used, greedy digit and whitespace runs cannot
trade characters with the non-digit, non-space delimiters that follow them,
so the hand-rolled scanners below are faithful to the regexp semantics
(leftmost match, groups as written). -/

/-- Go unicode.IsSpace on the Latin-1 range: the whitespace set used by
strings.TrimSpace.  (Engine output is ASCII; whitespace code points above
Latin-1 are not modelled.) -/
def goIsSpace (c : Char) : Bool :=
  c = ' ' || c = '\t' || c = '\n' || c = '\x0b' || c = '\x0c' || c = '\r' ||
    c = '\u0085' || c = '\u00A0'

/-- The character class matched by the whitespace escape in Go regexp (RE2):
tab, newline, form feed, carriage return, space. -/
def regexIsSpace (c : Char) : Bool :=
  c = '\t' || c = '\n' || c = '\x0c' || c = '\r' || c = ' '

/-- strings.TrimSpace. -/
def trimSpace (l : List Char) : List Char :=
  ((l.dropWhile goIsSpace).reverse.dropWhile goIsSpace).reverse

/-- strings.ToLower restricted to ASCII (the engine output alphabet). -/
def toLowerChar (c : Char) : Char :=
  if 'A' ≤ c ∧ c ≤ 'Z' then Char.ofNat (c.toNat + 32) else c

/-- Decimal value of a digit string. -/
def digitsVal (l : List Char) : Nat :=
  l.foldl (fun a c => a * 10 + (c.toNat - '0'.toNat)) 0

/-- Go strconv.Atoi with its error discarded, as parseTimestamp does:
well-formed decimal strings (optional sign, digits) give their value,
clamped into the int64 range on overflow (ParseInt returns the clamped
bound together with ErrRange), and any syntactically invalid or empty
string gives 0 (ParseInt returns 0 with ErrSyntax). -/
def atoiGo (s : List Char) : Int :=
  match s with
  | [] => 0
  | '+' :: rest =>
    if rest ≠ [] ∧ rest.all Char.isDigit then
      ((min (digitsVal rest) (2 ^ 63 - 1) : Nat) : Int)
    else 0
  | '-' :: rest =>
    if rest ≠ [] ∧ rest.all Char.isDigit then
      -((min (digitsVal rest) (2 ^ 63) : Nat) : Int)
    else 0
  | _ =>
    if s.all Char.isDigit then ((min (digitsVal s) (2 ^ 63 - 1) : Nat) : Int)
    else 0

/-- Nanoseconds per Go time.Duration unit. -/
def nsPerMillisecond : Int := 1000000

def nsPerSecond : Int := 1000000000

def nsPerMinute : Int := 60000000000

def nsPerHour : Int := 3600000000000

/-- strings.Split with a single-character separator. -/
def splitOnChar (sep : Char) : List Char → List (List Char)
  | [] => [[]]
  | c :: rest =>
    if c = sep then [] :: splitOnChar sep rest
    else
      match splitOnChar sep rest with
      | [] => [[c]]
      | h :: t => (c :: h) :: t

/-- parseTimestamp (capture.go lines 482-502): split on colons into
hours / minutes / seconds; anything but exactly three parts gives zero; the
seconds field splits on a dot for the millisecond component; each component
is converted with Atoi, its error ignored, so a non-numeric component
contributes zero.  The result is in nanoseconds (Go time.Duration; int64
wraparound is not modelled, the values involved are far below the bound). -/
def parseTimestamp (ts : List Char) : Int :=
  let parts := splitOnChar ':' ts
  if parts.length ≠ 3 then 0
  else
    let hours := atoiGo (parts.getD 0 [])
    let minutes := atoiGo (parts.getD 1 [])
    let secParts := splitOnChar '.' (parts.getD 2 [])
    let seconds := atoiGo (secParts.getD 0 [])
    let milliseconds := if 1 < secParts.length then atoiGo (secParts.getD 1 []) else 0
    hours * nsPerHour + minutes * nsPerMinute + seconds * nsPerSecond +
      milliseconds * nsPerMillisecond

/-- Scan one timestamp token of the bracket pattern (digits, colon, digits,
colon, digits, dot, digits -- capture.go line 393) at the head of the list.
Greedy digit runs are the only viable parse since each delimiter is a
non-digit.  Returns (matched characters, remainder). -/
def scanTimestampToken (l : List Char) : Option (List Char × List Char) :=
  let (d1, r1) := l.span Char.isDigit
  if d1.isEmpty then none
  else match r1 with
    | ':' :: r2 =>
      let (d2, r3) := r2.span Char.isDigit
      if d2.isEmpty then none
      else match r3 with
        | ':' :: r4 =>
          let (d3, r5) := r4.span Char.isDigit
          if d3.isEmpty then none
          else match r5 with
            | '.' :: r6 =>
              let (d4, r7) := r6.span Char.isDigit
              if d4.isEmpty then none
              else some (d1 ++ ':' :: d2 ++ ':' :: d3 ++ '.' :: d4, r7)
            | _ => none
        | _ => none
    | _ => none

/-- Attempt the whole bracket pattern at the current position: opening
bracket, timestamp, the literal arrow separator, timestamp, closing
bracket, a greedy whitespace run, then the greedy trailing capture group
(any characters up to a newline).  Returns the two timestamp strings and
the trailing capture group. -/
def matchTimestampAt : List Char → Option (List Char × List Char × List Char)
  | '[' :: r0 =>
    match scanTimestampToken r0 with
    | none => none
    | some (ts1, r1) =>
      if " --> ".data.isPrefixOf r1 then
        match scanTimestampToken (r1.drop 5) with
        | none => none
        | some (ts2, r2) =>
          match r2 with
          | ']' :: r3 =>
            some (ts1, ts2, (r3.dropWhile regexIsSpace).takeWhile (fun c => c ≠ '\n'))
          | _ => none
      else none
  | _ => none

/-- FindStringSubmatch for the timestamp pattern: the leftmost position at
which the whole pattern matches wins, scanning left to right. -/
def findTimestampMatch : List Char → Option (List Char × List Char × List Char)
  | [] => none
  | c :: rest =>
    match matchTimestampAt (c :: rest) with
    | some m => some m
    | none => findTimestampMatch rest

/-- The start-anchored literal patterns of the skip catalogue (capture.go
lines 396-425), matched against the lowercased trimmed line.  The
BLANK_AUDIO pattern is uppercase in the source and is kept verbatim:
matched against a lowercased line it can never fire. -/
def skipPrefixes : List (List Char) :=
  ["whisper_".data, "main:".data, "system_info:".data, "sampling:".data,
   "beam_search:".data, "output_".data, "log_mel_spectrogram".data, "encode:".data,
   "decode:".data, "run:".data, "model:".data, "[BLANK_AUDIO]".data,
   "processing audio".data, "loading model".data, "energy:".data, "speed:".data,
   "total".data, "file:".data, "n_".data, "ctx:".data, "params:".data,
   "initializing coreml".data, "coreml_".data, "cuda".data, "fallback".data,
   "seeking".data]

/-- The thread-count skip pattern: the literal "using ", one or more digits,
then the literal " threads", anchored at the start of the line. -/
def matchesUsingThreads (l : List Char) : Bool :=
  if "using ".data.isPrefixOf l then
    let (d, r) := (l.drop 6).span Char.isDigit
    !d.isEmpty && " threads".data.isPrefixOf r
  else false

/-- Whether the lowercased trimmed line matches one of the skip patterns
(including the all-whitespace pattern, which cannot fire on a trimmed
non-empty line). -/
def shouldSkip (lower : List Char) : Bool :=
  skipPrefixes.any (fun p => p.isPrefixOf lower) || lower.all regexIsSpace ||
    matchesUsingThreads lower

/-- Transcript segment (capture.go lines 525-530).  Times are Go
time.Duration nanoseconds relative to window start; the wall-clock creation
Timestamp field (time.Now) is outside the embedding and no claim refers to
it.  A plain-text segment carries the Go zero value for both bounds. -/
structure Segment where
  Text : String
  StartTime : Int
  EndTime : Int
deriving DecidableEq, Repr

/-- The per-line classification of parseWhisperOutput (capture.go lines
428-476): trim the line; drop it when blank; drop it when its lowercased
form matches the skip catalogue; when the original line matches the bracket
timestamp pattern, yield one segment with the parsed bounds and trimmed
trailing text unless that text is empty or the literal silence marker;
otherwise accept the trimmed line as plain text only if it does not begin
with bracket, hash or equals, contains no colon, and is longer than one
character. -/
def processLine (line : List Char) : List Segment :=
  let trimmedLine := trimSpace line
  if trimmedLine.isEmpty then []
  else if shouldSkip (trimmedLine.map toLowerChar) then []
  else
    match findTimestampMatch line with
    | some (ts1, ts2, g3) =>
      let text := trimSpace g3
      if text.isEmpty = false ∧ String.mk text ≠ "[BLANK_AUDIO]" then
        [{ Text := String.mk text, StartTime := parseTimestamp ts1,
           EndTime := parseTimestamp ts2 }]
      else []
    | none =>
      if "[".data.isPrefixOf trimmedLine = false ∧
         "#".data.isPrefixOf trimmedLine = false ∧
         "=".data.isPrefixOf trimmedLine = false ∧
         trimmedLine.contains ':' = false ∧
         1 < trimmedLine.length then
        [{ Text := String.mk trimmedLine, StartTime := 0, EndTime := 0 }]
      else []

/-- The dropCR step of bufio.ScanLines: strip one trailing carriage
return. -/
def dropTrailingCR (l : List Char) : List Char :=
  match l.reverse with
  | '\r' :: r => r.reverse
  | _ => l

/-- Drop the final token produced by a raw newline split when it is empty:
bufio.Scanner emits no empty final token for input ending in a newline. -/
def removeLastEmpty (parts : List (List Char)) : List (List Char) :=
  match parts.getLast? with
  | some [] => parts.dropLast
  | _ => parts

/-- bufio.Scanner with ScanLines: split on newline, no final empty token,
one trailing carriage return stripped from each line. -/
def splitLinesGo (s : List Char) : List (List Char) :=
  (removeLastEmpty (splitOnChar '\n' s)).map dropTrailingCR

/-- parseWhisperOutput (capture.go lines 389-479): classify each line of the
raw engine output in order and concatenate the produced segments. -/
def parseWhisperOutput (output : String) : List Segment :=
  ((splitLinesGo output.data).map processLine).flatten

/-- C6: the line bracket 00:00:01.500 arrow 00:00:03.250 bracket Hello world
yields exactly one segment with text Hello world, start 1500 ms and end
3250 ms; the line whose trailing text is the literal silence marker
BLANK_AUDIO yields zero segments. -/
theorem parse_timestamp_lines :
    parseWhisperOutput "[00:00:01.500 --> 00:00:03.250] Hello world" =
      [{ Text := "Hello world", StartTime := 1500 * nsPerMillisecond,
         EndTime := 3250 * nsPerMillisecond }] ∧
    parseWhisperOutput "[00:00:00.000 --> 00:00:01.000] [BLANK_AUDIO]" = [] := by
  constructor
  · decide
  · decide

/-- C4 counterexample: the claim states that the bracketed line with
malformed (non-numeric) first timestamp bound yields exactly one segment
with start zero; on the code it yields zero segments, because the bracket
pattern requires digits and the plain-text fallback rejects lines beginning
with a bracket. -/
theorem malformed_timestamp_not_one_segment :
    (parseWhisperOutput "[bad --> 00:00:01.000] text").length ≠ 1 := by
  decide

/-- C4 amended: a bracketed transcript line whose timestamp component is
malformed (non-numeric) does not match the digit-based timestamp pattern,
and since it begins with a bracket the plain-text fallback also rejects it:
the line is dropped entirely and yields zero segments.  The lenient
zero-on-non-numeric behaviour lives in parseTimestamp (which indeed maps the
malformed bound to zero duration) but is only reachable for bounds of lines
that already matched the digit pattern. -/
theorem malformed_timestamp_dropped :
    parseWhisperOutput "[bad --> 00:00:01.000] text" = [] ∧
    parseTimestamp "bad".data = 0 := by
  constructor
  · decide
  · decide

end Rekord
